import Mathlib

/-!
# Verification of the command-execution gateway

A shallow embedding of the policy gate, process runner and interactive
automator of `mcp_command_server_enh.py` / `pexpect_auto.py`, together with
theorems settling the specification's claims about them.

Strings are modelled as Lean `String` / `List Char`; the regular expressions
the code builds (`\b(tok1|tok2|...)\b[\s-]` and `\b<token>\b`) are modelled
by explicit decidable searches with the same word-boundary semantics.
Subprocess spawning, the pexpect child and its pty are modelled by oracles
(functions passed in as parameters) describing the environment's behaviour;
everything the code itself computes is translated directly.
-/

/-! ## Character classes (Python `\w`, `\s`, `str.strip`, `str.lower`) -/

/-- Python regex `\w` on ASCII text: letters, digits, underscore. -/
def pyWordChar (c : Char) : Bool := c.isAlphanum || c == '_'

/-- Python regex `\s` / `str.strip` whitespace set (ASCII part). -/
def pySpace (c : Char) : Bool :=
  c == ' ' || c == '\t' || c == '\n' || c == '\x0B' || c == '\x0C' || c == '\r'

/-- `str.strip()`: drop whitespace from both ends. -/
def strip (s : List Char) : List Char :=
  ((s.dropWhile pySpace).reverse.dropWhile pySpace).reverse

/-- `str.lower()` (ASCII). -/
def lower (s : List Char) : List Char := s.map Char.toLower

/-- The separator class of `re.split(r'[;&|]+', command)`. -/
def isSepChar (c : Char) : Bool := c == ';' || c == '&' || c == '|'

mutual

/-- Accumulating splitter: inside a segment (`cur` holds it reversed). -/
def splitSegs : List Char → List Char → List (List Char)
  | [], cur => [cur.reverse]
  | c :: rest, cur =>
    if isSepChar c then cur.reverse :: splitSepRun rest
    else splitSegs rest (c :: cur)

/-- Accumulating splitter: inside a run of separators (runs collapse,
as the `+` in `[;&|]+` makes them). -/
def splitSepRun : List Char → List (List Char)
  | [] => [[]]
  | c :: rest => if isSepChar c then splitSepRun rest else splitSegs rest [c]

end

/-- `re.split(r'[;&|]+', command)`: the segments between runs of `;`, `&`,
`|`, with an empty segment at an end that starts or finishes with a run. -/
def splitSeps (s : List Char) : List (List Char) := splitSegs s []

/-! ## Word-boundary search (the `\b` of `re`) -/

/-- Whether position `i` of `s` holds a word character (out of range: no). -/
def wordAt (s : List Char) (i : Nat) : Bool :=
  match s.drop i with
  | [] => false
  | c :: _ => pyWordChar c

/-- `\b` at position `i`: exactly one of the two neighbouring positions
holds a word character (out-of-range counts as non-word). -/
def boundaryAt (s : List Char) (i : Nat) : Bool :=
  (decide (i ≠ 0) && wordAt s (i - 1)) != wordAt s i

/-- Whether the literal token `tok` occurs at position `i` of `s` with a
word boundary on each side: the match of `\b<tok>\b` anchored at `i`. -/
def tokenHitAt (tok s : List Char) (i : Nat) : Bool :=
  boundaryAt s i && tok.isPrefixOf (s.drop i) && boundaryAt s (i + tok.length)

/-- The character class `[\s-]` at position `i` of `s`. -/
def spaceDashAt (s : List Char) (i : Nat) : Bool :=
  match s.drop i with
  | [] => false
  | c :: _ => pySpace c || c == '-'

/-- `re.search(r'\b(t1|…|tn)\b[\s-]', s) is not None`. -/
def searchWordSpaceDash (toks : List (List Char)) (s : List Char) : Bool :=
  (List.range (s.length + 1)).any fun i =>
    toks.any fun tok => tokenHitAt tok s i && spaceDashAt s (i + tok.length)

/-- `re.search(r'\b' + re.escape(tok) + r'\b', s) is not None`. -/
def searchWholeWord (tok s : List Char) : Bool :=
  (List.range (s.length + 1)).any fun i => tokenHitAt tok s i

/-! ## The policy gate (`is_command_blocked`, `is_restricted_file_access`,
`check_override`) -/

/-- `is_command_blocked` of `mcp_command_server_enh.py`: the prohibited
list comes from the loaded configuration and is passed explicitly here.
The command is split on runs of `;`/`&`/`|`; each part, stripped and
lowercased, is searched for any stripped token as a whole word followed by
whitespace or a dash; failing that, the lowercased whole command is
searched for any raw token as a whole word. -/
def is_command_blocked (prohibited : List String) (command : String) : Bool :=
  if prohibited.isEmpty then false
  else
    let cleaned := prohibited.map fun c => strip c.data
    if cleaned.isEmpty then false
    else
      let command_parts := splitSeps command.data
      let command_lower := lower command.data
      if command_parts.any fun part => searchWordSpaceDash cleaned (lower (strip part)) then
        true
      else
        prohibited.any fun block => searchWholeWord block.data command_lower

/-- Substring containment (`command.find(sub) > -1`). -/
def containsSub (s sub : List Char) : Bool :=
  (List.range (s.length + 1)).any fun i => sub.isPrefixOf (s.drop i)

/-- `is_restricted_file_access`: the command contains some configured
restricted file name as a substring. -/
def is_restricted_file_access (restricted : List String) (command : String) : Bool :=
  restricted.any fun restricted_file => containsSub command.data restricted_file.data

/-- The loaded policy configuration (the `command_blocking` and
`restricted_files` tables of `config.toml`). -/
structure Config where
  prohibited_commands : List String
  override : Bool
  restricted_files : List String
deriving DecidableEq, Repr

/-- `check_override`: reads the override flag of the configuration. -/
def check_override (cfg : Config) : Bool := cfg.override

/-- The default configuration the server falls back to (`DEFAULT_CONFIG`). -/
def defaultConfig : Config :=
  ⟨["rm ", "mv ", "sudo ", "su "], false,
   ["mcp_command_server_enh.py", "mcp_command_server.log", "pexpect_auto.py",
    "config.toml"]⟩

/-! ## The process runner (`fish_workaround`, `exec_command`,
`format_result_messages`, `run_command`)

Spawning is modelled by an oracle `spawn : SpawnRequest → SpawnOutcome`:
the request records what the code hands to `create_subprocess_shell` (the
command line and the stdin payload piped in, if any), the outcome is what
the environment does — the child's captured streams and exit code, a
`FileNotFoundError` while spawning, or any other exception. -/

/-- Python `str.encode('utf-8')` of one character, as byte values. -/
def utf8Bytes (c : Char) : List Nat :=
  let n := c.toNat
  if n < 128 then [n]
  else if n < 2048 then [192 + n / 64, 128 + n % 64]
  else if n < 65536 then [224 + n / 4096, 128 + n / 64 % 64, 128 + n % 64]
  else [240 + n / 262144, 128 + n / 4096 % 64, 128 + n / 64 % 64, 128 + n % 64]

/-- `s.encode('utf-8')` as byte values. -/
def strUtf8 (s : String) : List Nat := (s.data.map utf8Bytes).flatten

/-- The standard base64 alphabet. -/
def b64Char (n : Nat) : Char :=
  "ABCDEFGHIJKLMNOPQRSTUVWXYZabcdefghijklmnopqrstuvwxyz0123456789+/".data.getD n 'A'

/-- Base64 of a byte list, with `=` padding (RFC 4648, as
`base64.b64encode` computes it). -/
def b64Chunks : List Nat → List Char
  | [] => []
  | [a] => [b64Char (a / 4), b64Char (a % 4 * 16), '=', '=']
  | [a, b] => [b64Char (a / 4), b64Char (a % 4 * 16 + b / 16), b64Char (b % 16 * 4), '=']
  | a :: b :: c :: rest =>
    b64Char (a / 4) :: b64Char (a % 4 * 16 + b / 16) :: b64Char (b % 16 * 4 + c / 64)
      :: b64Char (c % 64) :: b64Chunks rest

/-- `base64.b64encode(s.encode('utf-8')).decode('utf-8')`. -/
def b64encodeStr (s : String) : String := ⟨b64Chunks (strUtf8 s)⟩

/-- What the code hands to `asyncio.create_subprocess_shell`: the command
line, and the stdin payload piped to the child (`none` = no stdin pipe). -/
structure SpawnRequest where
  cmd : String
  stdinData : Option String
deriving DecidableEq, Repr

/-- The environment's response to a spawn: captured stdout/stderr and the
child's exit code, a `FileNotFoundError` raised while spawning, or any
other exception with its text. -/
inductive SpawnOutcome where
  | ok (stdout stderr : String) (code : Int)
  | fileNotFound
  | otherError (msg : String)
deriving DecidableEq, Repr

/-- `ExecResult` of the server: stdout, stderr, optional exit code. -/
structure ExecResult where
  stdout : String
  stderr : String
  code : Option Int
deriving DecidableEq, Repr

/-- Python truthiness of an optional string (`if stdin:`): present and
non-empty. -/
def pyTruthy : Option String → Bool
  | none => false
  | some s => !s.isEmpty

/-- The wrapper command line `fish_workaround` builds:
`f'{interpreter} -c "echo {base64_stdin} | base64 -d | fish"'`. -/
def fishWrapperCmd (interpreter : String) (stdin : String) : String :=
  interpreter ++ " -c \"echo " ++ b64encodeStr stdin ++ " | base64 -d | fish\""

/-- The spawn request `exec_command` issues: the fish workaround when the
command's first space-separated token is `fish` and stdin is truthy
(no stdin pipe, base64 smuggled inside the command line); otherwise the
command unchanged, with a stdin pipe exactly when stdin is truthy. -/
def buildSpawnRequest (command : String) (stdin : Option String) : SpawnRequest :=
  if ((command.splitOn " ").headD "") == "fish" && pyTruthy stdin then
    ⟨fishWrapperCmd command (stdin.getD ""), none⟩
  else
    ⟨command, if pyTruthy stdin then stdin else none⟩

/-- The `try`/`except` of `exec_command` around the spawn (shared by the
fish path, whose exceptions the same handlers catch): a successful child
gives its streams and real exit code; `FileNotFoundError` gives exit 127
and `"Command not found: <command>\n"`; any other exception gives exit 1
with the exception text in stderr. -/
def handleOutcome (command : String) : SpawnOutcome → ExecResult
  | .ok out err code => ⟨out, err, some code⟩
  | .fileNotFound => ⟨"", "Command not found: " ++ command ++ "\n", some 127⟩
  | .otherError msg => ⟨"", msg, some 1⟩

/-- `exec_command` of the server, over the spawn oracle. -/
def exec_command (spawn : SpawnRequest → SpawnOutcome) (command : String)
    (stdin : Option String) : ExecResult :=
  handleOutcome command (spawn (buildSpawnRequest command stdin))

/-- One MCP content block (`{"type": ..., "text": ..., "name": ...}`). -/
structure Message where
  type : String
  text : String
  name : String
deriving DecidableEq, Repr

/-- `format_result_messages`: `EXIT_CODE` when the code is set, then
`STDOUT` when non-empty, then `STDERR` when non-empty. -/
def format_result_messages (result : ExecResult) : List Message :=
  (match result.code with
   | some c => [⟨"text", toString c, "EXIT_CODE"⟩]
   | none => [])
  ++ (if result.stdout = "" then [] else [⟨"text", result.stdout, "STDOUT"⟩])
  ++ (if result.stderr = "" then [] else [⟨"text", result.stderr, "STDERR"⟩])

/-- The dictionary `run_command` returns. -/
structure ToolResult where
  content : List Message
  is_error : Bool
deriving DecidableEq, Repr

/-- The fixed denial reason for a blocked command. -/
def blocked_feedback : String := "This server is not authorized to run these commands"

/-- The fixed denial reason for restricted file access. -/
def restricted_feedback : String := "This server is not authorized to access restricted files"

/-- The result `run_command` builds from an execution:
`format_result_messages` plus `is_error = (code != 0)`. -/
def mkExecToolResult (r : ExecResult) : ToolResult :=
  ⟨format_result_messages r, r.code != some 0⟩

/-- `run_command` of the server: the override check, the blocked-command
denial, the restricted-file denial, then the execution path. -/
def run_command (cfg : Config) (spawn : SpawnRequest → SpawnOutcome)
    (command : String) (stdin : Option String) : ToolResult :=
  if check_override cfg then
    mkExecToolResult (exec_command spawn command stdin)
  else if is_command_blocked cfg.prohibited_commands command then
    ⟨[⟨"text", "1", "EXIT_CODE"⟩, ⟨"text", blocked_feedback ++ "\n", "STDERR"⟩], true⟩
  else if is_restricted_file_access cfg.restricted_files command then
    ⟨[⟨"text", "1", "EXIT_CODE"⟩, ⟨"text", restricted_feedback ++ "\n", "STDERR"⟩], true⟩
  else
    mkExecToolResult (exec_command spawn command stdin)

/-! ## The interactive automator (`run_expect_script` of the server,
`PexpectAutomator.run` of `pexpect_auto.py`)

The pexpect child behind the pty is modelled by oracles: whether
`pexpect.spawn` succeeds, the outcome of the interaction each action
performs (`expect` may raise a pexpect timeout/EOF, any action may raise
some other exception), whether the final drain read succeeds and what it
returns, and whether the child is still alive when the `finally` block
runs. -/

/-- One entry of the `actions` argument of `run_expect_script`, a dict
read with `.get` (a missing key gives `none`). -/
structure ActionDict where
  action : Option String
  text : Option String
deriving DecidableEq, Repr

/-- The failures `run_expect_script` raises: the `ValueError` for an
action kind outside expect/send, and the `RuntimeError` when the
automator returns `None`. -/
inductive ScriptError where
  | invalidAction (act : Option String)
  | automatorFailed
deriving Repr

/-- The translation loop of `run_expect_script`: each dict's `action` must
be `"expect"` or `"send"`, else `ValueError` is raised; valid entries
become `(action, text)` tuples, in order. -/
def translateActions : List ActionDict → Except ScriptError (List (String × Option String))
  | [] => Except.ok []
  | d :: rest =>
    match d.action with
    | some a =>
      if a = "expect" ∨ a = "send" then
        match translateActions rest with
        | Except.ok l => Except.ok ((a, d.text) :: l)
        | Except.error e => Except.error e
      else Except.error (ScriptError.invalidAction (some a))
    | none => Except.error (ScriptError.invalidAction none)

/-- `run_expect_script` of the server, over an automator oracle standing
for `PexpectAutomator(program, tuple_actions).run()`: translate and
validate the actions first, then run the automator; `None` from the
automator becomes the `RuntimeError`. -/
def run_expect_script
    (runAutomator : String → List (String × Option String) → Option String)
    (program : String) (actions : List ActionDict) : Except ScriptError String :=
  match translateActions actions with
  | Except.error e => Except.error e
  | Except.ok tuple_actions =>
    match runAutomator program tuple_actions with
    | none => Except.error ScriptError.automatorFailed
    | some output => Except.ok output

/-- The outcome of one action's interaction with the child: normal
completion, a `pexpect.ExceptionPexpect` (an `expect` timeout or EOF), or
any other exception. -/
inductive StepOutcome where
  | ok
  | pexpectErr
  | otherErr
deriving DecidableEq, Repr

/-- The action loop of `PexpectAutomator.run`, at action index `i`:
`true` when every action completes, `false` when an exception ends the
loop — an oracle failure on an `expect`/`send`, or the `ValueError` the
`else` branch raises on an unknown action kind. -/
def loopOk (stepOut : Nat → StepOutcome) : Nat → List (String × Option String) → Bool
  | _, [] => true
  | i, (action, _text) :: rest =>
    if action == "expect" || action == "send" then
      match stepOut i with
      | StepOutcome.ok => loopOk stepOut (i + 1) rest
      | _ => false
    else false

/-- The child process handle at the moment `run` returns: never spawned,
already gone on its own, or closed by the `finally` block. -/
inductive ChildState where
  | noChild
  | stillAlive
  | exited
  | closed
deriving DecidableEq, Repr

/-- The `finally` block of `PexpectAutomator.run`: close the child if it
is still alive. -/
def finallyClose (aliveAtEnd : Bool) : ChildState :=
  if aliveAtEnd then ChildState.closed else ChildState.exited

/-- `PexpectAutomator.run`, over the child oracles: spawn, run the action
loop, drain the remaining output; any exception is caught and turns the
result into `none`; the `finally` block runs on every path that spawned a
child. Returns the result together with the child handle's state. -/
def automRun (spawnOk : Bool) (stepOut : Nat → StepOutcome) (drainOk : Bool)
    (drainText : String) (aliveAtEnd : Bool)
    (actions : List (String × Option String)) : Option String × ChildState :=
  if spawnOk then
    if loopOk stepOut 0 actions then
      if drainOk then (some drainText, finallyClose aliveAtEnd)
      else (none, finallyClose aliveAtEnd)
    else (none, finallyClose aliveAtEnd)
  else (none, ChildState.noChild)

/-! ## Bridge lemmas: bounded regex search vs. unbounded existentials -/

/-- Past the end of the string there is no word character. -/
theorem wordAt_false_of_le {s : List Char} {i : Nat} (h : s.length ≤ i) :
    wordAt s i = false := by
  unfold wordAt
  rw [List.drop_eq_nil_of_le h]

/-- A whole-word hit is anchored inside the string (at most one past the
last character). -/
theorem tokenHitAt_le {tok s : List Char} {i : Nat}
    (h : tokenHitAt tok s i = true) : i ≤ s.length := by
  by_contra hlt
  push_neg at hlt
  have h0 : wordAt s i = false := wordAt_false_of_le (Nat.le_of_lt hlt)
  have h1 : wordAt s (i - 1) = false := wordAt_false_of_le (by omega)
  unfold tokenHitAt boundaryAt at h
  rw [h0, h1] at h
  simp at h

/-- The token occurs somewhere in `s` as a whole word. -/
def HitsWholeWord (tok s : List Char) : Prop := ∃ i, tokenHitAt tok s i = true

/-- The token occurs somewhere in `s` as a whole word followed by
whitespace or a dash. -/
def HitsWordSpaceDash (tok s : List Char) : Prop :=
  ∃ i, tokenHitAt tok s i = true ∧ spaceDashAt s (i + tok.length) = true

/-- The bounded search for `\b<tok>\b` agrees with the unbounded
existential. -/
theorem searchWholeWord_iff {tok s : List Char} :
    searchWholeWord tok s = true ↔ HitsWholeWord tok s := by
  unfold searchWholeWord HitsWholeWord
  rw [List.any_eq_true]
  constructor
  · rintro ⟨i, -, h⟩
    exact ⟨i, h⟩
  · rintro ⟨i, h⟩
    exact ⟨i, List.mem_range.mpr (Nat.lt_succ_of_le (tokenHitAt_le h)), h⟩

/-- The bounded search for `\b(t1|…|tn)\b[\s-]` agrees with the unbounded
existential over tokens and positions. -/
theorem searchWordSpaceDash_iff {toks : List (List Char)} {s : List Char} :
    searchWordSpaceDash toks s = true ↔ ∃ tok ∈ toks, HitsWordSpaceDash tok s := by
  unfold searchWordSpaceDash HitsWordSpaceDash
  rw [List.any_eq_true]
  constructor
  · rintro ⟨i, -, h⟩
    rw [List.any_eq_true] at h
    obtain ⟨tok, htok, hh⟩ := h
    rw [Bool.and_eq_true] at hh
    exact ⟨tok, htok, i, hh.1, hh.2⟩
  · rintro ⟨tok, htok, i, h1, h2⟩
    refine ⟨i, List.mem_range.mpr (Nat.lt_succ_of_le (tokenHitAt_le h1)), ?_⟩
    rw [List.any_eq_true]
    exact ⟨tok, htok, by rw [Bool.and_eq_true]; exact ⟨h1, h2⟩⟩

/-! ## Claim C1 -/

/-- Claim C1's stated condition, literally: split the command on the
separators `;`, `&`, `|` into segments; some segment contains a
configured prohibited token (its whitespace-stripped word), matched
case-insensitively (both sides lowercased), as a whole word bounded on
both sides and followed by whitespace or a dash. -/
def claimBlocked (prohibited : List String) (command : String) : Bool :=
  (splitSeps command.data).any fun seg =>
    prohibited.any fun t =>
      searchWordSpaceDash [lower (strip t.data)] (lower seg)

/-- The two checks `is_command_blocked` actually performs, as unbounded
existentials: a stripped token found in some stripped, lowercased segment
as a whole word followed by whitespace or a dash, or a raw token found in
the lowercased whole command as a whole word. Tokens are matched verbatim
(the code lowercases only the command, never the token). -/
def AmendedBlocked (prohibited : List String) (command : String) : Prop :=
  (∃ seg ∈ splitSeps command.data, ∃ t ∈ prohibited,
      HitsWordSpaceDash (strip t.data) (lower (strip seg)))
  ∨ ∃ t ∈ prohibited, HitsWholeWord t.data (lower command.data)

/-- Claim C1 as stated is false: with prohibited token `"RM"`, the command
`"RM -rf /tmp/x"` contains the token case-insensitively as a whole word
followed by whitespace, so the claim demands Blocked; `is_command_blocked`
lowercases only the command, never the token, and returns Allowed. -/
theorem blocked_claim_counterexample :
    claimBlocked ["RM"] "RM -rf /tmp/x" = true
    ∧ is_command_blocked ["RM"] "RM -rf /tmp/x" = false := by
  constructor
  · decide
  · decide

/-- C1 (amended): `is_command_blocked` returns blocked iff, after
splitting the command on runs of `;`, `&`, `|`, some segment — stripped
of surrounding whitespace and lowercased — contains some stripped
configured token verbatim as a whole word bounded on both sides and
followed by whitespace or a dash, or the lowercased whole command
contains some raw configured token verbatim as a whole word bounded on
both sides; the token itself is not case-folded. In particular `rmdir`
under the `rm ` rule stays allowed. -/
theorem blocked_iff_amended :
    (∀ (prohibited : List String) (command : String),
        is_command_blocked prohibited command = true ↔ AmendedBlocked prohibited command)
    ∧ is_command_blocked ["rm ", "mv ", "sudo ", "su "] "rmdir -rf /tmp/x" = false := by
  constructor
  · intro prohibited command
    cases prohibited with
    | nil => simp [is_command_blocked, AmendedBlocked]
    | cons p ps =>
      have hred : is_command_blocked (p :: ps) command =
          (if (splitSeps command.data).any (fun part =>
                searchWordSpaceDash ((p :: ps).map fun c => strip c.data)
                  (lower (strip part))) then true
           else (p :: ps).any fun block =>
                  searchWholeWord block.data (lower command.data)) := by
        simp [is_command_blocked]
      rw [hred]
      have hsplit : ∀ (c d : Bool), ((if c = true then true else d) = true) ↔
          (c = true ∨ d = true) := by
        intro c d
        cases c <;> simp
      rw [hsplit]
      unfold AmendedBlocked
      constructor
      · rintro (h | h)
        · left
          rw [List.any_eq_true] at h
          obtain ⟨seg, hseg, hs⟩ := h
          rw [searchWordSpaceDash_iff] at hs
          obtain ⟨tok, htok, hhit⟩ := hs
          rw [List.mem_map] at htok
          obtain ⟨t, ht, rfl⟩ := htok
          exact ⟨seg, hseg, t, ht, hhit⟩
        · right
          rw [List.any_eq_true] at h
          obtain ⟨t, ht, hs⟩ := h
          rw [searchWholeWord_iff] at hs
          exact ⟨t, ht, hs⟩
      · rintro (⟨seg, hseg, t, ht, hhit⟩ | ⟨t, ht, hhit⟩)
        · left
          rw [List.any_eq_true]
          refine ⟨seg, hseg, ?_⟩
          rw [searchWordSpaceDash_iff]
          exact ⟨strip t.data, List.mem_map_of_mem _ ht, hhit⟩
        · right
          rw [List.any_eq_true]
          refine ⟨t, ht, ?_⟩
          rw [searchWholeWord_iff]
          exact hhit
  · decide

/-! ## Claim C2 -/

/-- C2: with the policy override flag true, `run_command` skips both the
prohibited-token check and the restricted-file check and proceeds to
execute the command, whatever the command string is. -/
theorem override_always_executes :
    ∀ (cfg : Config) (spawn : SpawnRequest → SpawnOutcome) (command : String)
      (stdin : Option String),
    check_override cfg = true →
    run_command cfg spawn command stdin
      = mkExecToolResult (exec_command spawn command stdin) := by
  intro cfg spawn command stdin h
  unfold run_command
  rw [h]
  simp

/-- C2 at a concrete input: a command the blocklist would deny is
executed anyway under override. -/
theorem override_always_executes_witness :
    run_command ⟨["rm ", "mv ", "sudo ", "su "], true, ["config.toml"]⟩
        (fun _ => SpawnOutcome.ok "" "" 0) "rm -rf /tmp/x" none
      = mkExecToolResult
          (exec_command (fun _ => SpawnOutcome.ok "" "" 0) "rm -rf /tmp/x" none) :=
  override_always_executes _ _ _ _ rfl

/-! ## Claim C3 -/

/-- C3: `exec_command` is total: whatever the spawn environment does, the
result carries a populated exit code; a `FileNotFoundError` while spawning
gives exit 127 with stderr exactly `"Command not found: <command>\n"`; any
other exception gives exit 1 with the exception text in stderr; a normal
child gives its own streams and code. -/
theorem exec_command_never_raises :
    ∀ (spawn : SpawnRequest → SpawnOutcome) (command : String) (stdin : Option String)
      (stdout stderr msg : String) (code : Int),
    (exec_command spawn command stdin).code.isSome = true
    ∧ exec_command (fun _ => SpawnOutcome.fileNotFound) command stdin
        = ⟨"", "Command not found: " ++ command ++ "\n", some 127⟩
    ∧ exec_command (fun _ => SpawnOutcome.otherError msg) command stdin
        = ⟨"", msg, some 1⟩
    ∧ exec_command (fun _ => SpawnOutcome.ok stdout stderr code) command stdin
        = ⟨stdout, stderr, some code⟩ := by
  intro spawn command stdin stdout stderr msg code
  refine ⟨?_, rfl, rfl, rfl⟩
  cases h : spawn (buildSpawnRequest command stdin) <;>
    simp [exec_command, handleOutcome, h]

/-! ## Claim C4 -/

/-- C4: a command denied by the policy gate (override off) returns the
fixed denial result — exit-code block `"1"`, the fixed reason line in a
stderr block, `is_error` — for any spawn environment, so no process is
ever spawned for it. -/
theorem denial_result_shape :
    ∀ (cfg : Config) (spawn : SpawnRequest → SpawnOutcome) (command : String)
      (stdin : Option String),
    check_override cfg = false →
    (is_command_blocked cfg.prohibited_commands command = true →
        run_command cfg spawn command stdin =
          ⟨[⟨"text", "1", "EXIT_CODE"⟩, ⟨"text", blocked_feedback ++ "\n", "STDERR"⟩],
           true⟩)
    ∧ (is_command_blocked cfg.prohibited_commands command = false →
        is_restricted_file_access cfg.restricted_files command = true →
        run_command cfg spawn command stdin =
          ⟨[⟨"text", "1", "EXIT_CODE"⟩, ⟨"text", restricted_feedback ++ "\n", "STDERR"⟩],
           true⟩) := by
  intro cfg spawn command stdin hov
  constructor
  · intro hb
    unfold run_command
    rw [hov, hb]
    simp
  · intro hb hr
    unfold run_command
    rw [hov, hb, hr]
    simp

/-- C4 at concrete inputs: a blocked command and a restricted-file command
under the default configuration. -/
theorem denial_result_shape_witness :
    run_command defaultConfig (fun _ => SpawnOutcome.ok "" "" 0) "rm -rf /tmp/x" none
        = ⟨[⟨"text", "1", "EXIT_CODE"⟩, ⟨"text", blocked_feedback ++ "\n", "STDERR"⟩],
           true⟩
    ∧ run_command defaultConfig (fun _ => SpawnOutcome.ok "" "" 0) "cat config.toml" none
        = ⟨[⟨"text", "1", "EXIT_CODE"⟩, ⟨"text", restricted_feedback ++ "\n", "STDERR"⟩],
           true⟩ :=
  ⟨(denial_result_shape defaultConfig _ "rm -rf /tmp/x" none rfl).1 (by decide),
   (denial_result_shape defaultConfig _ "cat config.toml" none rfl).2
     (by decide) (by decide)⟩

/-! ## Claim C5 -/

/-- The block shape claim C5 asserts of every `run_command` result: an
`EXIT_CODE` block with the code stringified, then a `STDOUT` block exactly
when stdout is non-empty, then a `STDERR` block exactly when stderr is
non-empty, and `is_error` true iff the exit code is non-zero. -/
def ResultBlocks (res : ToolResult) : Prop :=
  ∃ (c : Int) (out err : String),
    res.content =
      [⟨"text", toString c, "EXIT_CODE"⟩]
        ++ (if out = "" then [] else [⟨"text", out, "STDOUT"⟩])
        ++ (if err = "" then [] else [⟨"text", err, "STDERR"⟩])
    ∧ (res.is_error = true ↔ c ≠ 0)

/-- An execution result with a populated code renders in the C5 shape. -/
theorem resultBlocks_mkExec (r : ExecResult) (c : Int) (h : r.code = some c) :
    ResultBlocks (mkExecToolResult r) := by
  refine ⟨c, r.stdout, r.stderr, ?_, ?_⟩
  · simp [mkExecToolResult, format_result_messages, h]
  · simp [mkExecToolResult, h, bne_iff_ne]

/-- C5: every result `run_command` returns — run failure, success, or
policy denial — is the ordered block list `EXIT_CODE`, then `STDOUT` if
non-empty, then `STDERR` if non-empty, with `is_error` true iff the exit
code is non-zero. -/
theorem run_command_result_blocks :
    ∀ (cfg : Config) (spawn : SpawnRequest → SpawnOutcome) (command : String)
      (stdin : Option String),
    ResultBlocks (run_command cfg spawn command stdin) := by
  intro cfg spawn command stdin
  have hexec : ResultBlocks (mkExecToolResult (exec_command spawn command stdin)) := by
    obtain ⟨c, hc⟩ : ∃ c, (exec_command spawn command stdin).code = some c := by
      cases h : spawn (buildSpawnRequest command stdin) with
      | ok o e c => exact ⟨c, by simp [exec_command, handleOutcome, h]⟩
      | fileNotFound => exact ⟨127, by simp [exec_command, handleOutcome, h]⟩
      | otherError m => exact ⟨1, by simp [exec_command, handleOutcome, h]⟩
    exact resultBlocks_mkExec _ c hc
  unfold run_command
  by_cases h1 : check_override cfg = true
  · rw [h1]
    simpa using hexec
  · rw [Bool.not_eq_true] at h1
    rw [h1]
    simp only [Bool.false_eq_true, if_false]
    by_cases h2 : is_command_blocked cfg.prohibited_commands command = true
    · rw [h2]
      simp only [if_true]
      exact ⟨1, "", blocked_feedback ++ "\n", by decide, by decide⟩
    · rw [Bool.not_eq_true] at h2
      rw [h2]
      simp only [Bool.false_eq_true, if_false]
      by_cases h3 : is_restricted_file_access cfg.restricted_files command = true
      · rw [h3]
        simp only [if_true]
        exact ⟨1, "", restricted_feedback ++ "\n", by decide, by decide⟩
      · rw [Bool.not_eq_true] at h3
        rw [h3]
        simp only [Bool.false_eq_true, if_false]
        exact hexec

/-! ## Claim C6 -/

/-- An action dict whose kind is one of the two the server accepts. -/
def validKind (d : ActionDict) : Bool :=
  d.action == some "expect" || d.action == some "send"

/-- The translation loop stops at the first invalid action kind with the
`ValueError`. -/
theorem translateActions_err :
    ∀ (actions : List ActionDict),
    actions.any (fun d => !validKind d) = true →
    ∃ a, translateActions actions = Except.error (ScriptError.invalidAction a) := by
  intro actions h
  induction actions with
  | nil => simp at h
  | cons d rest ih =>
    cases hd : d.action with
    | none => exact ⟨none, by simp [translateActions, hd]⟩
    | some a =>
      by_cases ha : a = "expect" ∨ a = "send"
      · have hv : validKind d = true := by
          rcases ha with rfl | rfl <;> simp [validKind, hd]
        have ht : rest.any (fun d => !validKind d) = true := by
          rw [List.any_cons, hv] at h
          simpa using h
        obtain ⟨a', ha'⟩ := ih ht
        exact ⟨a', by simp [translateActions, hd, ha, ha']⟩
      · exact ⟨some a, by simp [translateActions, hd, ha]⟩

/-- C6: an automation request containing any action whose kind is outside
expect/send fails validation before any automator work: the result is the
`ValueError`, and it does not depend on the automator oracle or the
program, so no `PexpectAutomator` is constructed and no child is
spawned, whatever the invalid action's position. -/
theorem invalid_action_rejected_early :
    ∀ (R R' : String → List (String × Option String) → Option String)
      (program program' : String) (actions : List ActionDict),
    actions.any (fun d => !validKind d) = true →
    (∃ a, run_expect_script R program actions
            = Except.error (ScriptError.invalidAction a))
    ∧ run_expect_script R program actions = run_expect_script R' program' actions := by
  intro R R' program program' actions h
  obtain ⟨a, ha⟩ := translateActions_err actions h
  constructor
  · exact ⟨a, by simp [run_expect_script, ha]⟩
  · simp [run_expect_script, ha]

/-- C6 at a concrete input: a misspelled action kind in second position is
rejected identically under two different automator oracles and programs. -/
theorem invalid_action_rejected_early_witness :
    (∃ a, run_expect_script (fun _ _ => some "ok") "python3 pythagoras.py"
            [⟨some "expect", some "Enter a: "⟩, ⟨some "frobnicate", some "9"⟩]
          = Except.error (ScriptError.invalidAction a))
    ∧ run_expect_script (fun _ _ => some "ok") "python3 pythagoras.py"
        [⟨some "expect", some "Enter a: "⟩, ⟨some "frobnicate", some "9"⟩]
      = run_expect_script (fun _ _ => none) "other program"
        [⟨some "expect", some "Enter a: "⟩, ⟨some "frobnicate", some "9"⟩] :=
  invalid_action_rejected_early _ _ _ _ _ (by decide)

/-! ## Claim C7 -/

/-- If the `expect` action sitting after `pre` meets a pexpect failure,
the action loop fails, wherever the failure class hits earlier actions. -/
theorem loopOk_false_at :
    ∀ (stepOut : Nat → StepOutcome) (pre post : List (String × Option String))
      (txt : Option String) (i : Nat),
    stepOut (i + pre.length) = StepOutcome.pexpectErr →
    loopOk stepOut i (pre ++ ("expect", txt) :: post) = false := by
  intro stepOut pre
  induction pre with
  | nil =>
    intro post txt i h
    simp only [List.length_nil, Nat.add_zero] at h
    simp [loopOk, h]
  | cons hd tl ih =>
    intro post txt i h
    obtain ⟨act, t⟩ := hd
    by_cases hv : (act == "expect" || act == "send") = true
    · rw [List.cons_append]
      rw [show loopOk stepOut i ((act, t) :: (tl ++ ("expect", txt) :: post)) =
          (if act == "expect" || act == "send" then
            match stepOut i with
            | StepOutcome.ok => loopOk stepOut (i + 1) (tl ++ ("expect", txt) :: post)
            | _ => false
          else false) from rfl]
      rw [hv]
      simp only [if_true]
      cases hs : stepOut i with
      | ok =>
        exact ih post txt (i + 1)
          (by rw [show i + 1 + tl.length = i + (tl.length + 1) by omega]
              simpa using h)
      | pexpectErr => rfl
      | otherErr => rfl
    · rw [Bool.not_eq_true] at hv
      simp [loopOk, hv]
/-- C7: an `expect` action that meets a pexpect failure (timeout or EOF)
is terminal: `PexpectAutomator.run` returns `None` — no partial output,
whatever was already captured and whatever actions remain — and
`run_expect_script` turns the `None` into the `RuntimeError` instead of
output. -/
theorem expect_failure_terminal :
    ∀ (stepOut : Nat → StepOutcome) (drainOk : Bool) (drainText : String)
      (aliveAtEnd : Bool) (pre post : List (String × Option String))
      (txt : Option String)
      (R : String → List (String × Option String) → Option String) (program : String)
      (actions : List ActionDict) (tacts : List (String × Option String)),
    stepOut pre.length = StepOutcome.pexpectErr →
    (automRun true stepOut drainOk drainText aliveAtEnd
        (pre ++ ("expect", txt) :: post)).1 = none
    ∧ (translateActions actions = Except.ok tacts → R program tacts = none →
        run_expect_script R program actions = Except.error ScriptError.automatorFailed) := by
  intro stepOut drainOk drainText aliveAtEnd pre post txt R program actions tacts h
  constructor
  · have hl : loopOk stepOut 0 (pre ++ ("expect", txt) :: post) = false :=
      loopOk_false_at stepOut pre post txt 0 (by simpa using h)
    simp [automRun, hl]
  · intro ht hr
    simp [run_expect_script, ht, hr]

/-- C7 at a concrete input: the pythagoras-style script whose second
`expect` times out yields `None` (the drain text is never returned), and a
failing automator surfaces as the `RuntimeError`. -/
theorem expect_failure_terminal_witness :
    (automRun true (fun i => if i < 2 then StepOutcome.ok else StepOutcome.pexpectErr)
        true "partial output" true
        ([("expect", some "Enter a: "), ("send", some "3")]
          ++ ("expect", some "Enter b: ")
            :: [("send", some "4"), ("expect", some "hypotenuse")])).1 = none
    ∧ run_expect_script (fun _ _ => none) "python3 pythagoras.py"
        [⟨some "expect", some "Enter a: "⟩]
      = Except.error ScriptError.automatorFailed :=
  ⟨(expect_failure_terminal
      (fun i => if i < 2 then StepOutcome.ok else StepOutcome.pexpectErr)
      true "partial output" true
      [("expect", some "Enter a: "), ("send", some "3")]
      [("send", some "4"), ("expect", some "hypotenuse")] (some "Enter b: ")
      (fun _ _ => none) "python3 pythagoras.py"
      [⟨some "expect", some "Enter a: "⟩] [("expect", some "Enter a: ")]
      (by decide)).1,
   (expect_failure_terminal
      (fun i => if i < 2 then StepOutcome.ok else StepOutcome.pexpectErr)
      true "partial output" true
      [("expect", some "Enter a: "), ("send", some "3")]
      [("send", some "4"), ("expect", some "hypotenuse")] (some "Enter b: ")
      (fun _ _ => none) "python3 pythagoras.py"
      [⟨some "expect", some "Enter a: "⟩] [("expect", some "Enter a: ")]
      (by decide)).2 rfl rfl⟩

/-! ## Claim C8 -/

/-- C8: on every exit path of `PexpectAutomator.run` — success after the
final drain, pexpect error, invalid-action error, or any other exception —
the child handle is never left alive: the `finally` block closes it
whenever the child was spawned and is still alive, and a child that was
never spawned or already exited needs no closing. -/
theorem automator_no_child_leak :
    ∀ (spawnOk : Bool) (stepOut : Nat → StepOutcome) (drainOk : Bool)
      (drainText : String) (aliveAtEnd : Bool)
      (actions : List (String × Option String)),
    (automRun spawnOk stepOut drainOk drainText aliveAtEnd actions).2
        ≠ ChildState.stillAlive
    ∧ ((automRun spawnOk stepOut drainOk drainText aliveAtEnd actions).2
          = ChildState.closed
        ↔ spawnOk = true ∧ aliveAtEnd = true) := by
  intro spawnOk stepOut drainOk drainText aliveAtEnd actions
  unfold automRun finallyClose
  cases spawnOk <;> cases aliveAtEnd <;>
    cases hl : loopOk stepOut 0 actions <;> cases drainOk <;> simp [hl]

/-! ## Claim C9 -/

/-- C9: `exec_command` applies the fish shim exactly when the command's
first space-separated token is `"fish"` and stdin is non-empty: the
spawned command line becomes the one-line wrapper
`<command> -c "echo <b64> | base64 -d | fish"` with no stdin pipe; any
other command with non-empty stdin is spawned unmodified with the stdin
piped directly; absent stdin leaves the request untouched; and
`exec_command` runs exactly the request so built. -/
theorem fish_shim_exact_trigger :
    ∀ (spawn : SpawnRequest → SpawnOutcome) (command s : String),
    (((command.splitOn " ").headD "" = "fish" ∧ s ≠ "") →
        buildSpawnRequest command (some s) =
          ⟨command ++ " -c \"echo " ++ b64encodeStr s ++ " | base64 -d | fish\"",
           none⟩)
    ∧ (¬ (command.splitOn " ").headD "" = "fish" → s ≠ "" →
        buildSpawnRequest command (some s) = ⟨command, some s⟩)
    ∧ (buildSpawnRequest command (some "")).cmd = command
    ∧ buildSpawnRequest command none = ⟨command, none⟩
    ∧ exec_command spawn command (some s)
        = handleOutcome command (spawn (buildSpawnRequest command (some s))) := by
  intro spawn command s
  have hnone : buildSpawnRequest command none = ⟨command, none⟩ := by
    simp [buildSpawnRequest, pyTruthy]
  have hempty : (buildSpawnRequest command (some "")).cmd = command := by
    have h0 : pyTruthy (some "") = false := by decide
    simp [buildSpawnRequest, h0]
  refine ⟨?_, ?_, hempty, hnone, rfl⟩
  · rintro ⟨hfish, hs⟩
    have h1 : ((command.splitOn " ").headD "" == "fish") = true := by
      rw [beq_iff_eq]
      exact hfish
    have h2 : pyTruthy (some s) = true := by
      simp only [pyTruthy, Bool.not_eq_true']
      rw [← Bool.not_eq_true]
      intro hemp
      exact hs ((String.isEmpty_iff s).mp hemp)
    have hcond : (((command.splitOn " ").headD "" == "fish") && pyTruthy (some s))
        = true := by
      rw [h1, h2]
      rfl
    unfold buildSpawnRequest
    rw [hcond]
    simp [fishWrapperCmd]
  · intro hf hs
    have h1 : ((command.splitOn " ").headD "" == "fish") = false := by
      rw [beq_eq_false_iff_ne]
      exact hf
    have h2 : pyTruthy (some s) = true := by
      simp only [pyTruthy, Bool.not_eq_true']
      rw [← Bool.not_eq_true]
      intro hemp
      exact hs ((String.isEmpty_iff s).mp hemp)
    have hcond : (((command.splitOn " ").headD "" == "fish") && pyTruthy (some s))
        = false := by
      rw [h1]
      rfl
    unfold buildSpawnRequest
    rw [hcond]
    simp [h2]

/-! ## Claim C10 -/

/-- C10: an empty stdin string behaves exactly like an absent stdin: no
stdin pipe is attached, nothing is piped to the child, and the fish shim
is not triggered even when the first token is `fish` — `exec_command`
gives identical results on `some ""` and `none`. -/
theorem empty_stdin_like_none :
    ∀ (spawn : SpawnRequest → SpawnOutcome) (command : String),
    exec_command spawn command (some "") = exec_command spawn command none
    ∧ buildSpawnRequest command (some "") = ⟨command, none⟩ := by
  intro spawn command
  have h0 : pyTruthy (some "") = false := by decide
  have hb : buildSpawnRequest command (some "") = ⟨command, none⟩ := by
    simp [buildSpawnRequest, h0]
  have hn : buildSpawnRequest command none = ⟨command, none⟩ := by
    simp [buildSpawnRequest, pyTruthy]
  refine ⟨?_, hb⟩
  unfold exec_command
  rw [hb, hn]
